import Mathlib

set_option maxRecDepth 8000

/-!
Verification of the book-structure-detection and chapter-analysis pipeline
(src/lib/pdf/detectStructure.ts, src/lib/pdf/analyzeBook.ts, and the
course-plan edit flow of the course-creation agent).  External collaborators
(PDF parsing and the structured-generation capability) are modelled as
environment records whose call results are supplied as `Except`-valued data;
each `try { ... } catch` in the source corresponds to a `match` on that
`Except`, and code paths whose `await` is not wrapped in a `try` propagate
the error through `Except` bind.  JavaScript numbers are modelled as `Int`
(page indices, counts, minute estimates), with `Math.round` of an exact
ratio rendered as round-half-up integer division.
-/

namespace BookQuest

/-- JS `Array.prototype.slice(start, end)` with negative-index and clamping
semantics. -/
def jsArraySlice (l : List α) (s e : Int) : List α :=
  let len : Int := l.length
  let s' := if s < 0 then max (len + s) 0 else min s len
  let e' := if e < 0 then max (len + e) 0 else min e len
  (l.take e'.toNat).drop s'.toNat

/-- JS `Math.round (p / q)` on the exact ratio `p / q`: round half toward
positive infinity (`floor (p / q + 1 / 2)`), with the `q = 0` case mapped to
`0` (never exercised by the claims). -/
def jsRoundDiv (p q : Int) : Int :=
  if q = 0 then 0
  else if q < 0 then Int.fdiv (2 * (-p) + (-q)) (2 * (-q))
  else Int.fdiv (2 * p + q) (2 * q)

/-- JS `String.prototype.split(/\s+/)` on a string's characters: split on
maximal whitespace runs; a leading run yields a leading empty token and a
trailing run a trailing empty token, and the empty string yields `[""]`. -/
def jsSplitWhitespace (s : String) : List (List Char) :=
  let step : (List (List Char) × List Char × Bool) → Char →
      (List (List Char) × List Char × Bool) :=
    fun acc c =>
      let (toks, cur, prevWs) := acc
      if c.isWhitespace then
        if prevWs then (toks, cur, true) else (toks ++ [cur], [], true)
      else (toks, cur ++ [c], false)
  let fin := s.data.foldl step ([], [], false)
  fin.1 ++ [fin.2.1]

/-- Word count used by the deterministic fallback:
`chapterText.split(/\s+/).length`. -/
def jsWordCount (s : String) : Nat := (jsSplitWhitespace s).length

/-- JS `String.prototype.trim` (modelled on whitespace characters). -/
def jsTrim (s : String) : String :=
  ⟨((s.data.dropWhile Char.isWhitespace).reverse.dropWhile Char.isWhitespace).reverse⟩

/-- Substring test on character lists (JS `String.prototype.includes`). -/
def listContains (hay needle : List Char) : Bool :=
  hay.tails.any (fun t => needle.isPrefixOf t)

/-- Normalization used by the title-match tier:
`s.toLowerCase().replace(/[^a-z0-9\s]/g, "")`. -/
def normalizeText (s : String) : List Char :=
  (s.data.map Char.toLower).filter
    (fun c => ('a' ≤ c && c ≤ 'z') || ('0' ≤ c && c ≤ '9') || c.isWhitespace)

-- ---------------------------------------------------------------------------
-- Data model (src/lib/pdf/detectStructure.ts)
-- ---------------------------------------------------------------------------

/-- `ChapterBoundary`: a 0-based inclusive page range attributed to one
chapter. -/
structure ChapterBoundary where
  title : String
  startPage : Int
  endPage : Int
deriving DecidableEq, Repr

/-- `BookStructure` as produced by `detectBookStructure`. -/
structure BookStructure where
  title : String
  author : Option String
  chapters : List ChapterBoundary
  detectionMethod : String
deriving DecidableEq, Repr

/-- A link annotation candidate harvested from a scanned PDF page.
`destPage` is `some d` exactly when `annot.dest` is an array whose head is
the number `d`; `text` is `contentsObj.str`, else `title`, else `""`. -/
structure LinkAnnot where
  subtype : String
  destPage : Option Int
  text : String
deriving DecidableEq, Repr

/-- Result of the table-of-contents extraction call (tier 2). -/
structure TocResult where
  bookTitle : String
  author : Option String
  chapterTitles : List String
deriving DecidableEq, Repr

/-- One sampled boundary returned by the sampling call (tier 3);
`pageNumber` is 1-based. -/
structure SampleBoundary where
  title : String
  pageNumber : Int
deriving DecidableEq, Repr

/-- Result of the boundary-sampling call (tier 3). -/
structure SamplingResult where
  boundaryPattern : String
  boundaries : List SampleBoundary
deriving DecidableEq, Repr

/-- Result of the book-metadata extraction call. -/
structure MetaResult where
  title : String
  author : Option String
deriving DecidableEq, Repr

/-- Environment of `detectBookStructure`: the outcome of each external
interaction.  `regexCompile` models `new RegExp(pattern, "i")`: `none` when
construction throws, otherwise a matcher giving each page's first match. -/
structure DetectEnv where
  hasApiKey : Bool
  pdfParse : Except String (Nat × List LinkAnnot)
  tocCall : Except String TocResult
  samplingCall : Except String SamplingResult
  regexCompile : String → Option (String → Option String)
  metadataCall : Except String MetaResult

-- ---------------------------------------------------------------------------
-- Shared boundary assembly: each chapter ends where the next starts minus
-- one; the last chapter ends at the document's final page.
-- ---------------------------------------------------------------------------

/-- Fill `endPage`s over a list of `(title, startPage)` pairs. -/
def fillEnds : List (String × Int) → Int → List ChapterBoundary
  | [], _ => []
  | [(t, s)], lastPage => [⟨t, s, lastPage⟩]
  | (t, s) :: (t₂, s₂) :: rest, lastPage =>
      ⟨t, s, s₂ - 1⟩ :: fillEnds ((t₂, s₂) :: rest) lastPage

-- ---------------------------------------------------------------------------
-- Tier 1 — PDF link annotations (detectFromPdfLinks)
-- ---------------------------------------------------------------------------

/-- `seen`-set filter: keep the first link per destination page. -/
def dedupByDestPage : List (String × Int) → List Int → List (String × Int)
  | [], _ => []
  | l :: rest, seen =>
      if l.2 ∈ seen then dedupByDestPage rest seen
      else l :: dedupByDestPage rest (l.2 :: seen)

/-- The per-annotation harvest of the tier-1 scan loop: a `Link` annotation
with a numeric destination, a nonempty trimmed label and `destPage >= 0`
contributes `(text.trim(), destPage)`. -/
def linkFilter (a : LinkAnnot) : Option (String × Int) :=
  match a.destPage with
  | some d =>
      if a.subtype = "Link" ∧ jsTrim a.text ≠ "" ∧ 0 ≤ d then
        some (jsTrim a.text, d)
      else none
  | none => none

/-- Tier 1: collect labelled link annotations, require at least 3 distinct
destination pages, sort by destination and assemble boundaries.  A PDF
parsing failure is caught and yields `none`. -/
def detectFromPdfLinks (parse : Except String (Nat × List LinkAnnot)) :
    Option (List ChapterBoundary) :=
  match parse with
  | .error _ => none
  | .ok (numPages, annots) =>
    let links := annots.filterMap linkFilter
    if links.length < 3 then none
    else
      let sorted := links.insertionSort (fun a b => a.2 ≤ b.2)
      let unique := dedupByDestPage sorted []
      if unique.length < 3 then none
      else some (fillEnds unique ((numPages : Int) - 1))

-- ---------------------------------------------------------------------------
-- Tier 2 — Title matching (detectFromTitleMatching)
-- ---------------------------------------------------------------------------

/-- First page (by index) whose normalized text contains the normalized
title, requiring normalized title length > 5. -/
def firstMatchPageAux (normTitle : List Char) : Nat → List String → Option Nat
  | _, [] => none
  | p, pg :: rest =>
      if listContains (normalizeText pg) normTitle ∧ normTitle.length > 5 then
        some p
      else firstMatchPageAux normTitle (p + 1) rest

/-- The located `(title, page)` pairs for the extracted chapter titles, in
title order (pre-sort). -/
def titleMatches (pages : List String) (titles : List String) :
    List (String × Nat) :=
  titles.filterMap (fun title =>
    (firstMatchPageAux (normalizeText title) 0 pages).map (fun p => (title, p)))

/-- Tier 2: extract a TOC title list via one generation call, locate each
title's first page, require at least 2 located titles, sort by located page
and assemble boundaries.  Returns the chapters plus book title/author. -/
def detectFromTitleMatching (pages : List String) (hasApiKey : Bool)
    (tocCall : Except String TocResult) :
    Option (List ChapterBoundary × String × Option String) :=
  if ¬hasApiKey then none
  else
    let tocText := String.intercalate "\n---PAGE BREAK---\n"
      (jsArraySlice pages 0 (min 15 (pages.length : Int)))
    if (jsTrim tocText).data.length < 100 then none
    else
      match tocCall with
      | .error _ => none
      | .ok toc =>
        if toc.chapterTitles.length < 2 then none
        else
          let chapters := titleMatches pages toc.chapterTitles
          if chapters.length < 2 then none
          else
            let sorted := chapters.insertionSort (fun a b => a.2 ≤ b.2)
            some (fillEnds (sorted.map (fun m => (m.1, (m.2 : Int))))
                    ((pages.length : Int) - 1),
                  (if toc.bookTitle = "" then "Untitled" else toc.bookTitle),
                  toc.author)

-- ---------------------------------------------------------------------------
-- Tier 3 — LLM boundary detection from sampled pages (detectFromLlmSampling)
-- ---------------------------------------------------------------------------

/-- Scan every page for its first regex match; keep
`(match[0].trim().slice(0, 100), pageIndex)`. -/
def pagesFirstMatchesAux (matcher : String → Option String) :
    Nat → List String → List (String × Nat)
  | _, [] => []
  | p, pg :: rest =>
      match matcher pg with
      | some m => (⟨(jsTrim m).data.take 100⟩, p) :: pagesFirstMatchesAux matcher (p + 1) rest
      | none => pagesFirstMatchesAux matcher (p + 1) rest

/-- Fallback within tier 3: use the sampled boundaries directly, converting
1-based page numbers to 0-based start pages. -/
def sampledChapters (result : SamplingResult) (pages : List String) :
    List ChapterBoundary :=
  let sorted := result.boundaries.insertionSort (fun a b => a.pageNumber ≤ b.pageNumber)
  fillEnds (sorted.map (fun b => (b.title, b.pageNumber - 1))) ((pages.length : Int) - 1)

/-- Tier 3: requires the generation capability and at least 10 pages; asks
for a pattern plus sampled boundaries, requires at least 2 boundaries; if
the pattern compiles and rescanning all pages finds at least 2 hits, prefer
those, else fall back to the sampled boundaries. -/
def detectFromLlmSampling (pages : List String) (hasApiKey : Bool)
    (samplingCall : Except String SamplingResult)
    (regexCompile : String → Option (String → Option String)) :
    Option (List ChapterBoundary) :=
  if ¬hasApiKey then none
  else if pages.length < 10 then none
  else
    match samplingCall with
    | .error _ => none
    | .ok result =>
      if result.boundaries.length < 2 then none
      else
        match regexCompile result.boundaryPattern with
        | some matcher =>
          let found := pagesFirstMatchesAux matcher 0 pages
          if found.length ≥ 2 then
            some (fillEnds (found.map (fun f => (f.1, (f.2 : Int))))
                    ((pages.length : Int) - 1))
          else some (sampledChapters result pages)
        | none => some (sampledChapters result pages)

-- ---------------------------------------------------------------------------
-- Tier 4 — Fixed chunking (fixedChunks)
-- ---------------------------------------------------------------------------

/-- The chunking loop: windows of 30 pages starting at `i`, numbered from
`num`.  `fuel` only bounds the iteration count (each iteration advances `i`
by 30, so `total` iterations always suffice); it keeps the recursion
structural so the definition evaluates by reduction. -/
def fixedChunksGo : Nat → Nat → Nat → Nat → List ChapterBoundary
  | 0, _, _, _ => []
  | fuel + 1, total, i, num =>
    if i < total then
      ⟨"Section " ++ toString num, (i : Int), ((min (i + 29) (total - 1) : Nat) : Int)⟩ ::
        fixedChunksGo fuel total (i + 30) (num + 1)
    else []

/-- Tier 4: deterministic fixed 30-page windows, titled sequentially. -/
def fixedChunks (pages : List String) : List ChapterBoundary :=
  fixedChunksGo pages.length pages.length 0 1

-- ---------------------------------------------------------------------------
-- Book metadata extraction (extractBookMetadata)
-- ---------------------------------------------------------------------------

/-- Title/author via a separate generation call over the first pages; any
failure (or missing credentials) degrades to a placeholder title. -/
def extractBookMetadata (hasApiKey : Bool) (metadataCall : Except String MetaResult) :
    String × Option String :=
  if ¬hasApiKey then ("Untitled Book", none)
  else
    match metadataCall with
    | .error _ => ("Untitled Book", none)
    | .ok o => ((if o.title = "" then "Untitled Book" else o.title), o.author)

-- ---------------------------------------------------------------------------
-- Main entry point (detectBookStructure), tiers in order
-- ---------------------------------------------------------------------------

/-- Tier 4 arm of the fallthrough. -/
def detectTier4 (env : DetectEnv) (pages : List String) : BookStructure :=
  let meta := extractBookMetadata env.hasApiKey env.metadataCall
  ⟨meta.1, meta.2, fixedChunks pages, "fixed-chunks"⟩

/-- Tier 3 arm of the fallthrough. -/
def detectTier3 (env : DetectEnv) (pages : List String) : BookStructure :=
  match detectFromLlmSampling pages env.hasApiKey env.samplingCall env.regexCompile with
  | some llmChapters =>
    if llmChapters.length ≥ 2 then
      let meta := extractBookMetadata env.hasApiKey env.metadataCall
      ⟨meta.1, meta.2, llmChapters, "llm-detection"⟩
    else detectTier4 env pages
  | none => detectTier4 env pages

/-- Tier 2 arm of the fallthrough. -/
def detectTier2 (env : DetectEnv) (pages : List String) : BookStructure :=
  match detectFromTitleMatching pages env.hasApiKey env.tocCall with
  | some titleResult =>
    if titleResult.1.length ≥ 2 then
      ⟨titleResult.2.1, titleResult.2.2, titleResult.1, "title-match"⟩
    else detectTier3 env pages
  | none => detectTier3 env pages

/-- `detectBookStructure`: tries the four tiers in strict order, accepting
the first that yields the tier's minimum chapter count. -/
def detectBookStructure (env : DetectEnv) (pages : List String) : BookStructure :=
  match detectFromPdfLinks env.pdfParse with
  | some linkChapters =>
    if linkChapters.length ≥ 3 then
      let meta := extractBookMetadata env.hasApiKey env.metadataCall
      ⟨meta.1, meta.2, linkChapters, "pdf-links"⟩
    else detectTier2 env pages
  | none => detectTier2 env pages

-- ---------------------------------------------------------------------------
-- Chapter analysis (src/lib/pdf/analyzeBook.ts)
-- ---------------------------------------------------------------------------

/-- The per-chapter analysis fields (the chapter-analysis schema; also the
shape of a successful generation result). -/
structure ChapterAnalysisFields where
  summary : String
  keyConcepts : List String
  learningObjectives : List String
  prerequisites : List String
  estimatedReadingMinutes : Int
deriving DecidableEq, Repr

/-- `ChapterAnalysis`: the fields plus position and page range. -/
structure ChapterAnalysis extends ChapterAnalysisFields where
  chapterNumber : Nat
  title : String
  startPage : Int
  endPage : Int
deriving DecidableEq, Repr

/-- `BookAnalysis`: the durable per-course artifact. -/
structure BookAnalysis where
  title : String
  author : Option String
  totalPages : Int
  chapters : List ChapterAnalysis
  detectionMethod : String
deriving DecidableEq, Repr

/-- Environment of the chapter analyzer: credentials plus the outcome of the
generation call as a function of the analyzer's inputs (chapter number,
title, submitted text, previous-chapter context). -/
structure AnalyzeEnv where
  hasApiKey : Bool
  generate : Nat → String → String → Option String → Except String ChapterAnalysisFields

/-- Truncation of the chapter text before submission:
`chapterText.slice(0, 80000) + "\n[...truncated]"` when over budget. -/
def truncateChapterText (chapterText : String) : String :=
  if chapterText.data.length > 80000 then
    ⟨chapterText.data.take 80000⟩ ++ "\n[...truncated]"
  else chapterText

/-- The deterministic fallback analysis (used when no credentials are
configured or the generation call errors). -/
def fallbackChapterAnalysis (title chapterText : String) : ChapterAnalysisFields :=
  { summary := "Content from \"" ++ title ++ "\"."
    keyConcepts := []
    learningObjectives := []
    prerequisites := []
    estimatedReadingMinutes := max 5 (jsRoundDiv ((jsWordCount chapterText : Nat) : Int) 250) }

/-- `analyzeChapter`: one chapter's analysis; never raises.  A successful
generation result has its summary defaulted when empty and its reading-time
replaced by the word-count heuristic unless strictly positive. -/
def analyzeChapter (env : AnalyzeEnv) (chapterNumber : Nat) (title : String)
    (chapterText : String) (previousChapterContext : Option String) :
    ChapterAnalysisFields :=
  if ¬env.hasApiKey then fallbackChapterAnalysis title chapterText
  else
    match env.generate chapterNumber title (truncateChapterText chapterText)
        previousChapterContext with
    | .error _ => fallbackChapterAnalysis title chapterText
    | .ok o =>
      { summary := if o.summary = "" then "Content from \"" ++ title ++ "\"." else o.summary
        keyConcepts := o.keyConcepts
        learningObjectives := o.learningObjectives
        prerequisites := o.prerequisites
        estimatedReadingMinutes :=
          if 0 < o.estimatedReadingMinutes then o.estimatedReadingMinutes
          else max 5 (jsRoundDiv ((jsWordCount chapterText : Nat) : Int) 250) }

-- ---------------------------------------------------------------------------
-- Orchestrator (analyzeChaptersWithContext)
-- ---------------------------------------------------------------------------

/-- Placeholder for reading an unwritten result slot (a JS array hole). -/
def defaultChapterAnalysis : ChapterAnalysis :=
  { summary := "", keyConcepts := [], learningObjectives := [], prerequisites := []
    estimatedReadingMinutes := 0, chapterNumber := 0, title := "", startPage := 0, endPage := 0 }

/-- `pages.slice(chapter.startPage, chapter.endPage + 1).join("\n\n")`. -/
def chapterTextFor (pages : List String) (ch : ChapterBoundary) : String :=
  String.intercalate "\n\n" (jsArraySlice pages ch.startPage (ch.endPage + 1))

/-- The work of the task created for chapter index `i`: analyze it and build
its result record (`chapterNumber := i + 1` by position). -/
def analyzeIndexed (env : AnalyzeEnv) (pages : List String)
    (chapters : List ChapterBoundary) (i : Nat) (previousContext : Option String) :
    ChapterAnalysis :=
  let ch := chapters.getD i ⟨"", 0, 0⟩
  { toChapterAnalysisFields :=
      analyzeChapter env (i + 1) ch.title (chapterTextFor pages ch) previousContext
    chapterNumber := i + 1
    title := ch.title
    startPage := ch.startPage
    endPage := ch.endPage }

/-- The previous-chapter context read at task-creation time:
`if (i > 0 && results[i-1]) previousContext = results[i-1].keyConcepts.join(", ")`.
Task creations inside one batch all run before any task of that batch
completes, so they read the result store as it stood when the batch
started. -/
def snapshotContext (results : Nat → Option ChapterAnalysis) (i : Nat) :
    Option String :=
  if 0 < i then
    match results (i - 1) with
    | some prev => some (String.intercalate ", " prev.keyConcepts)
    | none => none
  else none

/-- One batch: create the tasks for indices `[batchStart, batchEnd)` against
the snapshot, then record every task's result in its own slot. -/
def runBatch (env : AnalyzeEnv) (pages : List String)
    (chapters : List ChapterBoundary) (results : Nat → Option ChapterAnalysis)
    (batchStart batchEnd : Nat) : Nat → Option ChapterAnalysis :=
  let tasks := (List.range' batchStart (batchEnd - batchStart)).map
    (fun i => (i, analyzeIndexed env pages chapters i (snapshotContext results i)))
  tasks.foldl (fun r t => fun j => if j = t.1 then some t.2 else r j) results

/-- The batch loop: batches of 5, fully sequential.  `fuel` only bounds the
iteration count (`chapters.length` always suffices). -/
def analyzeLoopGo (env : AnalyzeEnv) (pages : List String)
    (chapters : List ChapterBoundary) :
    Nat → (Nat → Option ChapterAnalysis) → Nat → (Nat → Option ChapterAnalysis)
  | 0, results, _ => results
  | fuel + 1, results, batchStart =>
    if batchStart < chapters.length then
      analyzeLoopGo env pages chapters fuel
        (runBatch env pages chapters results batchStart
          (min (batchStart + 5) chapters.length))
        (batchStart + 5)
    else results

/-- `analyzeChaptersWithContext`: all chapters in concurrency-5 batches,
results assembled strictly by chapter index. -/
def analyzeChaptersWithContext (env : AnalyzeEnv) (bookStructure : BookStructure)
    (pages : List String) : List ChapterAnalysis :=
  let final := analyzeLoopGo env pages bookStructure.chapters
    bookStructure.chapters.length (fun _ => none) 0
  (List.range bookStructure.chapters.length).map
    (fun i => (final i).getD defaultChapterAnalysis)

/-- `analyzeBook`: detection followed by orchestrated analysis. -/
def analyzeBook (denv : DetectEnv) (aenv : AnalyzeEnv) (pages : List String) :
    BookAnalysis :=
  let structureR := detectBookStructure denv pages
  { title := structureR.title
    author := structureR.author
    totalPages := (pages.length : Int)
    chapters := analyzeChaptersWithContext aenv structureR pages
    detectionMethod := structureR.detectionMethod }

-- ---------------------------------------------------------------------------
-- Plan editing / gap reconciliation (editCoursePlan)
-- ---------------------------------------------------------------------------

/-- One unit of a course plan. -/
structure CoursePlanUnit where
  unitNumber : Int
  title : String
  summary : String
  objectives : List String
  sourceChapters : List Int
  estimatedMinutes : Int
deriving DecidableEq, Repr

/-- A course plan. -/
structure CoursePlan where
  title : String
  description : String
  estimatedHours : Int
  units : List CoursePlanUnit
deriving DecidableEq, Repr

/-- A chapter reported by the discovery call (its page fields are 0-based). -/
structure DiscoveredChapter where
  title : String
  summary : String
  keyConcepts : List String
  learningObjectives : List String
  startPage : Int
  endPage : Int
deriving DecidableEq, Repr

/-- Shape of the plan-returning generation calls (merge and standard edit). -/
structure EditedPlanResponse where
  title : String
  description : String
  estimatedHours : Int
  units : List CoursePlanUnit
  explanation : String
deriving DecidableEq, Repr

/-- Result of `editCoursePlan`. -/
structure EditPlanResult where
  updatedPlan : CoursePlan
  updatedBookAnalysis : Option BookAnalysis
  explanation : String
deriving DecidableEq, Repr

instance {ε α : Type} [DecidableEq ε] [DecidableEq α] : DecidableEq (Except ε α) :=
  fun x y =>
    match x, y with
    | .error a, .error b =>
      if h : a = b then isTrue (by rw [h])
      else isFalse (by intro hc; injection hc; contradiction)
    | .ok a, .ok b =>
      if h : a = b then isTrue (by rw [h])
      else isFalse (by intro hc; injection hc; contradiction)
    | .error _, .ok _ => isFalse (by intro hc; cases hc)
    | .ok _, .error _ => isFalse (by intro hc; cases hc)

/-- Environment of `editCoursePlan`: credentials, the user-state-doc load
and the three generation calls, each as a supplied outcome. -/
structure EditEnv where
  hasApiKey : Bool
  docs : Except String Unit
  discoveryCall : Except String (List DiscoveredChapter)
  mergeCall : Except String EditedPlanResponse
  standardEditCall : Except String EditedPlanResponse

/-- The missing-content intent heuristic:
`/miss|last chapter|missing|forgot|left out|not included|cut off|incomplete/i`. -/
def looksLikeMissingContent (instruction : String) : Bool :=
  let hay := instruction.data.map Char.toLower
  ["miss", "last chapter", "missing", "forgot", "left out", "not included",
    "cut off", "incomplete"].any (fun p => listContains hay p.data)

/-- JS truthiness of `extractedPages?.length`. -/
def hasExtractedPages (extractedPages : Option (List String)) : Bool :=
  match extractedPages with
  | some ps => !ps.isEmpty
  | none => false

/-- How a discovered chapter is appended to the book analysis:
`estimatedReadingMinutes` is proportional
(`round((pageSpan / totalPages) * 120)`), `prerequisites` defaults empty. -/
def discoveredToAnalysis (baseCount : Nat) (totalPages : Int) (i : Nat)
    (ch : DiscoveredChapter) : ChapterAnalysis :=
  { chapterNumber := baseCount + i + 1
    title := ch.title
    startPage := ch.startPage
    endPage := ch.endPage
    summary := ch.summary
    keyConcepts := ch.keyConcepts
    learningObjectives := ch.learningObjectives
    prerequisites := []
    estimatedReadingMinutes := jsRoundDiv ((ch.endPage - ch.startPage + 1) * 120) totalPages }

/-- The chapter list of the updated book analysis built by the discovery
flow: the original chapters with the discovered chapters appended. -/
def appendDiscovered (ba : BookAnalysis) (ds : List DiscoveredChapter) :
    List ChapterAnalysis :=
  ba.chapters ++
    ds.mapIdx (fun i ch => discoveredToAnalysis ba.chapters.length ba.totalPages i ch)

/-- The single-call standard edit path (no `updatedBookAnalysis`). -/
def standardEditFlow (env : EditEnv) : Except String EditPlanResult :=
  match env.standardEditCall with
  | .error e => .error e
  | .ok editedPlan =>
    .ok { updatedPlan := ⟨editedPlan.title, editedPlan.description,
            editedPlan.estimatedHours, editedPlan.units⟩
          updatedBookAnalysis := none
          explanation := editedPlan.explanation }

/-- `editCoursePlan`: early no-credentials return, then the state-doc load,
then either the two-step discovery flow (missing-content intent, raw pages
available, uncovered trailing pages) or the standard edit.  The generation
calls of both flows are not wrapped in any `try`, so their errors propagate
to the caller. -/
def editCoursePlan (env : EditEnv) (currentPlan : CoursePlan)
    (userInstruction : String) (bookAnalysis : BookAnalysis)
    (extractedPages : Option (List String)) : Except String EditPlanResult :=
  if ¬env.hasApiKey then
    .ok { updatedPlan := currentPlan
          updatedBookAnalysis := none
          explanation := "No API key configured — unable to edit the plan automatically." }
  else
    match env.docs with
    | .error e => .error e
    | .ok _ =>
      if looksLikeMissingContent userInstruction ∧ hasExtractedPages extractedPages then
        let lastDetectedPage := (bookAnalysis.chapters.getLast?).elim 0 (fun c => c.endPage)
        let totalPages := bookAnalysis.totalPages
        if lastDetectedPage < totalPages - 1 then
          match env.discoveryCall with
          | .error e => .error e
          | .ok discovered =>
            let updatedBookAnalysis : BookAnalysis :=
              { bookAnalysis with
                chapters := bookAnalysis.chapters ++
                  discovered.mapIdx
                    (fun i ch => discoveredToAnalysis bookAnalysis.chapters.length totalPages i ch) }
            match env.mergeCall with
            | .error e => .error e
            | .ok editedPlan =>
              .ok { updatedPlan := ⟨editedPlan.title, editedPlan.description,
                      editedPlan.estimatedHours, editedPlan.units⟩
                    updatedBookAnalysis := some updatedBookAnalysis
                    explanation := editedPlan.explanation }
        else standardEditFlow env
      else standardEditFlow env

-- ---------------------------------------------------------------------------
-- The BookStructure chapter invariant and supporting lemmas
-- ---------------------------------------------------------------------------

/-- The spec's `BookStructure` invariant: chapters sorted ascending by
`startPage`, pairwise non-overlapping, and every range non-empty. -/
def chaptersWellFormed (cs : List ChapterBoundary) : Prop :=
  List.Pairwise (fun a b => a.startPage ≤ b.startPage) cs ∧
  List.Pairwise (fun a b => a.endPage < b.startPage) cs ∧
  ∀ c ∈ cs, c.startPage ≤ c.endPage

instance (cs : List ChapterBoundary) : Decidable (chaptersWellFormed cs) := by
  unfold chaptersWellFormed; infer_instance

theorem chain'_pairwise_of_valid {cs : List ChapterBoundary}
    (h : List.Chain' (fun a b => a.endPage < b.startPage) cs)
    (hv : ∀ c ∈ cs, c.startPage ≤ c.endPage) :
    List.Pairwise (fun a b => a.endPage < b.startPage) cs := by
  induction cs with
  | nil => exact List.Pairwise.nil
  | cons a l ih =>
    rw [List.chain'_cons'] at h
    have hl := ih h.2 (fun c hc => hv c (List.mem_cons_of_mem _ hc))
    refine List.pairwise_cons.mpr ⟨?_, hl⟩
    intro b hb
    cases l with
    | nil => cases hb
    | cons y l' =>
      have hay : a.endPage < y.startPage := h.1 y rfl
      rcases List.mem_cons.mp hb with hby | hbl
      · exact hby ▸ hay
      · have hyb : y.endPage < b.startPage := (List.pairwise_cons.mp hl).1 b hbl
        have hyv : y.startPage ≤ y.endPage :=
          hv y (List.mem_cons_of_mem _ (List.mem_cons_self _ _))
        omega

theorem wellFormed_of_chain {cs : List ChapterBoundary}
    (h : List.Chain' (fun a b => a.endPage < b.startPage) cs)
    (hv : ∀ c ∈ cs, c.startPage ≤ c.endPage) : chaptersWellFormed cs := by
  have hp := chain'_pairwise_of_valid h hv
  refine ⟨?_, hp, hv⟩
  exact hp.imp_of_mem (fun {a b} ha _ hab => le_of_lt (lt_of_le_of_lt (hv a ha) hab))

theorem fillEnds_chain : ∀ (xs : List (String × Int)) (lp : Int),
    List.Chain' (fun a b : String × Int => a.2 < b.2) xs →
    (∀ x ∈ xs, x.2 ≤ lp) →
    List.Chain' (fun a b : ChapterBoundary => a.endPage < b.startPage) (fillEnds xs lp) ∧
      ∀ c ∈ fillEnds xs lp, c.startPage ≤ c.endPage := by
  intro xs
  induction xs with
  | nil => intro lp _ _; exact ⟨List.chain'_nil, by simp [fillEnds]⟩
  | cons x xs ih =>
    obtain ⟨t, s⟩ := x
    cases xs with
    | nil =>
      intro lp _ hb
      refine ⟨List.chain'_singleton _, ?_⟩
      intro c hc
      simp only [fillEnds, List.mem_singleton] at hc
      subst hc
      exact hb (t, s) (List.mem_singleton_self _)
    | cons y ys =>
      obtain ⟨t₂, s₂⟩ := y
      intro lp hc hb
      have hss : s < s₂ := (List.chain'_cons.mp hc).1
      have ihr := ih lp (List.chain'_cons.mp hc).2
        (fun z hz => hb z (List.mem_cons_of_mem _ hz))
      constructor
      · show List.Chain' _ (⟨t, s, s₂ - 1⟩ :: fillEnds ((t₂, s₂) :: ys) lp)
        rw [List.chain'_cons']
        refine ⟨?_, ihr.1⟩
        intro c hcm
        have : c.startPage = s₂ := by
          cases ys with
          | nil => simp only [fillEnds, List.head?] at hcm; injection hcm with h; subst h; rfl
          | cons z zs => simp only [fillEnds, List.head?] at hcm; injection hcm with h; subst h; rfl
        show (⟨t, s, s₂ - 1⟩ : ChapterBoundary).endPage < c.startPage
        rw [this]; show s₂ - 1 < s₂; omega
      · intro c hcm
        rcases List.mem_cons.mp hcm with hch | hct
        · subst hch; show s ≤ s₂ - 1; omega
        · exact ihr.2 c hct

theorem insertionSort_key_sorted {α β : Type} [LinearOrder β] (f : α → β) (l : List α) :
    List.Pairwise (fun a b => f a ≤ f b) (l.insertionSort (fun a b => f a ≤ f b)) := by
  haveI : IsTotal α (fun a b => f a ≤ f b) := ⟨fun a b => le_total (f a) (f b)⟩
  haveI : IsTrans α (fun a b => f a ≤ f b) := ⟨fun _ _ _ h₁ h₂ => le_trans h₁ h₂⟩
  exact List.sorted_insertionSort _ l

theorem chain'_lt_of_le_of_ne {α β : Type} [LinearOrder β] (f : α → β) (l : List α)
    (hle : List.Pairwise (fun a b => f a ≤ f b) l)
    (hne : List.Pairwise (fun a b => f a ≠ f b) l) :
    List.Chain' (fun a b => f a < f b) l :=
  ((hle.and hne).imp (fun h => lt_of_le_of_ne h.1 h.2)).chain'

theorem dedupByDestPage_mem : ∀ (l : List (String × Int)) (seen : List Int)
    (x : String × Int), x ∈ dedupByDestPage l seen → x ∈ l ∧ x.2 ∉ seen := by
  intro l
  induction l with
  | nil => intro seen x hx; cases hx
  | cons a l ih =>
    intro seen x hx
    by_cases h : a.2 ∈ seen
    · simp only [dedupByDestPage, if_pos h] at hx
      obtain ⟨hm, hs⟩ := ih seen x hx
      exact ⟨List.mem_cons_of_mem _ hm, hs⟩
    · simp only [dedupByDestPage, if_neg h] at hx
      rcases List.mem_cons.mp hx with hxa | hxl
      · exact ⟨hxa ▸ List.mem_cons_self _ _, hxa ▸ h⟩
      · obtain ⟨hm, hs⟩ := ih (a.2 :: seen) x hxl
        exact ⟨List.mem_cons_of_mem _ hm, fun hc => hs (List.mem_cons_of_mem _ hc)⟩

theorem dedupByDestPage_chain : ∀ (l : List (String × Int)) (seen : List Int),
    List.Pairwise (fun a b : String × Int => a.2 ≤ b.2) l →
    List.Chain' (fun a b : String × Int => a.2 < b.2) (dedupByDestPage l seen) := by
  intro l
  induction l with
  | nil => intro seen _; exact List.chain'_nil
  | cons a l ih =>
    intro seen hp
    obtain ⟨ha, hl⟩ := List.pairwise_cons.mp hp
    by_cases h : a.2 ∈ seen
    · simpa only [dedupByDestPage, if_pos h] using ih seen hl
    · simp only [dedupByDestPage, if_neg h]
      rw [List.chain'_cons']
      refine ⟨?_, ih (a.2 :: seen) hl⟩
      intro y hy
      have hym := List.mem_of_mem_head? hy
      obtain ⟨hyl, hys⟩ := dedupByDestPage_mem l (a.2 :: seen) y hym
      have h1 : a.2 ≤ y.2 := ha y hyl
      have h2 : y.2 ≠ a.2 := fun hc => hys (hc ▸ List.mem_cons_self _ _)
      exact lt_of_le_of_ne h1 (fun hc => h2 hc.symm)

theorem firstMatchPageAux_lt : ∀ (nt : List Char) (k : Nat) (pgs : List String)
    (p : Nat), firstMatchPageAux nt k pgs = some p → p < k + pgs.length := by
  intro nt k pgs
  induction pgs generalizing k with
  | nil => intro p hp; cases hp
  | cons pg rest ih =>
    intro p hp
    simp only [firstMatchPageAux] at hp
    split at hp
    · injection hp with h; subst h; simp
    · have := ih (k + 1) p hp
      simp only [List.length_cons]
      omega

theorem titleMatches_page_lt (pages titles : List String) :
    ∀ x ∈ titleMatches pages titles, x.2 < pages.length := by
  intro x hx
  simp only [titleMatches, List.mem_filterMap] at hx
  obtain ⟨title, _, hm⟩ := hx
  cases hfm : firstMatchPageAux (normalizeText title) 0 pages with
  | none => rw [hfm] at hm; cases hm
  | some p =>
    rw [hfm] at hm
    simp only [Option.map_some'] at hm
    have := firstMatchPageAux_lt (normalizeText title) 0 pages p hfm
    injection hm with h
    subst h
    simpa using this

theorem pagesFirstMatchesAux_mem : ∀ (m : String → Option String) (k : Nat)
    (pgs : List String) (x : String × Nat),
    x ∈ pagesFirstMatchesAux m k pgs → k ≤ x.2 ∧ x.2 < k + pgs.length := by
  intro m k pgs
  induction pgs generalizing k with
  | nil => intro x hx; cases hx
  | cons pg rest ih =>
    intro x hx
    simp only [pagesFirstMatchesAux] at hx
    cases hmm : m pg with
    | some s =>
      rw [hmm] at hx
      rcases List.mem_cons.mp hx with hxa | hxl
      · subst hxa; simp
      · have := ih (k + 1) x hxl
        simp only [List.length_cons]
        omega
    | none =>
      rw [hmm] at hx
      have := ih (k + 1) x hx
      simp only [List.length_cons]
      omega

theorem pagesFirstMatchesAux_chain : ∀ (m : String → Option String) (k : Nat)
    (pgs : List String),
    List.Chain' (fun a b : String × Nat => a.2 < b.2) (pagesFirstMatchesAux m k pgs) := by
  intro m k pgs
  induction pgs generalizing k with
  | nil => exact List.chain'_nil
  | cons pg rest ih =>
    simp only [pagesFirstMatchesAux]
    cases hmm : m pg with
    | some s =>
      rw [List.chain'_cons']
      refine ⟨?_, ih (k + 1)⟩
      intro y hy
      have hym := List.mem_of_mem_head? hy
      have := pagesFirstMatchesAux_mem m (k + 1) rest y hym
      show k < y.2
      omega
    | none => exact ih (k + 1)

theorem fixedChunksGo_start_ge : ∀ (fuel total i num : Nat) (c : ChapterBoundary),
    c ∈ fixedChunksGo fuel total i num → ∃ k : Nat, c.startPage = (k : Int) ∧ i ≤ k := by
  intro fuel
  induction fuel with
  | zero => intro total i num c hc; cases hc
  | succ fuel ih =>
    intro total i num c hc
    simp only [fixedChunksGo] at hc
    split at hc
    · rcases List.mem_cons.mp hc with hch | hct
      · exact ⟨i, by rw [hch], le_refl i⟩
      · obtain ⟨k, hk, hik⟩ := ih total (i + 30) (num + 1) c hct
        exact ⟨k, hk, by omega⟩
    · cases hc

theorem fixedChunksGo_wellFormed : ∀ (fuel total i num : Nat),
    List.Chain' (fun a b : ChapterBoundary => a.endPage < b.startPage)
      (fixedChunksGo fuel total i num) ∧
      ∀ c ∈ fixedChunksGo fuel total i num, c.startPage ≤ c.endPage := by
  intro fuel
  induction fuel with
  | zero => intro total i num; exact ⟨List.chain'_nil, by intro c hc; cases hc⟩
  | succ fuel ih =>
    intro total i num
    simp only [fixedChunksGo]
    split
    · next hlt =>
      obtain ⟨ihc, ihv⟩ := ih total (i + 30) (num + 1)
      constructor
      · rw [List.chain'_cons']
        refine ⟨?_, ihc⟩
        intro y hy
        have hym := List.mem_of_mem_head? hy
        obtain ⟨k, hk, hik⟩ := fixedChunksGo_start_ge fuel total (i + 30) (num + 1) y hym
        show ((min (i + 29) (total - 1) : Nat) : Int) < y.startPage
        rw [hk]
        have : min (i + 29) (total - 1) < k := by omega
        exact_mod_cast this
      · intro c hc
        rcases List.mem_cons.mp hc with hch | hct
        · subst hch
          show (i : Int) ≤ ((min (i + 29) (total - 1) : Nat) : Int)
          have : i ≤ min (i + 29) (total - 1) := by omega
          exact_mod_cast this
        · exact ihv c hct
    · exact ⟨List.chain'_nil, by intro c hc; cases hc⟩

theorem fixedChunks_wellFormed (pages : List String) :
    chaptersWellFormed (fixedChunks pages) := by
  obtain ⟨hc, hv⟩ := fixedChunksGo_wellFormed pages.length pages.length 0 1
  exact wellFormed_of_chain hc hv

theorem fillEnds_wellFormed (xs : List (String × Int)) (lp : Int)
    (h1 : List.Chain' (fun a b : String × Int => a.2 < b.2) xs)
    (h2 : ∀ x ∈ xs, x.2 ≤ lp) : chaptersWellFormed (fillEnds xs lp) :=
  wellFormed_of_chain (fillEnds_chain xs lp h1 h2).1 (fillEnds_chain xs lp h1 h2).2

theorem detectFromPdfLinks_wellFormed (parse : Except String (Nat × List LinkAnnot))
    (cs : List ChapterBoundary)
    (hin : ∀ numPages annots, parse = .ok (numPages, annots) →
      ∀ a ∈ annots, ∀ d, a.destPage = some d → d < (numPages : Int))
    (h : detectFromPdfLinks parse = some cs) :
    chaptersWellFormed cs := by
  cases parse with
  | error e => simp [detectFromPdfLinks] at h
  | ok p =>
    obtain ⟨numPages, annots⟩ := p
    simp only [detectFromPdfLinks] at h
    split at h
    · cases h
    · split at h
      · cases h
      · injection h with h
        subst h
        apply fillEnds_wellFormed
        · exact dedupByDestPage_chain _ []
            (insertionSort_key_sorted (fun x : String × Int => x.2) _)
        · intro x hx
          obtain ⟨hxs, _⟩ := dedupByDestPage_mem _ [] x hx
          have hxl : x ∈ annots.filterMap linkFilter :=
            (List.mem_insertionSort _).mp hxs
          obtain ⟨a, ha, hfa⟩ := List.mem_filterMap.mp hxl
          cases hd : a.destPage with
          | none =>
            simp only [linkFilter, hd] at hfa
            cases hfa
          | some d =>
            simp only [linkFilter, hd] at hfa
            split at hfa
            · injection hfa with hfa
              have hdlt := hin numPages annots rfl a ha d hd
              rw [← hfa]
              show d ≤ (numPages : Int) - 1
              omega
            · cases hfa

theorem detectFromTitleMatching_wellFormed (pages : List String) (hasApiKey : Bool)
    (tocCall : Except String TocResult)
    (res : List ChapterBoundary × String × Option String)
    (hnd : ∀ toc, tocCall = .ok toc →
      List.Pairwise (fun a b : String × Nat => a.2 ≠ b.2)
        (titleMatches pages toc.chapterTitles))
    (h : detectFromTitleMatching pages hasApiKey tocCall = some res) :
    chaptersWellFormed res.1 := by
  simp only [detectFromTitleMatching] at h
  split at h
  · cases h
  · split at h
    · cases h
    · cases tocCall with
      | error e => cases h
      | ok toc =>
        simp only at h
        split at h
        · cases h
        · split at h
          · cases h
          · injection h with h
            subst h
            have hsorted := insertionSort_key_sorted (fun x : String × Nat => x.2)
              (titleMatches pages toc.chapterTitles)
            have hdist : List.Pairwise (fun a b : String × Nat => a.2 ≠ b.2)
                ((titleMatches pages toc.chapterTitles).insertionSort
                  (fun a b => a.2 ≤ b.2)) :=
              ((List.perm_insertionSort _ _).pairwise_iff
                (fun hne => Ne.symm hne)).mpr (hnd toc rfl)
            have hchainN := chain'_lt_of_le_of_ne (fun x : String × Nat => x.2) _
              hsorted hdist
            apply fillEnds_wellFormed
            · rw [List.chain'_map]
              exact List.Chain'.imp
                (fun a b hab => by
                  have hab' : a.2 < b.2 := hab
                  show ((a.2 : Nat) : Int) < ((b.2 : Nat) : Int)
                  exact_mod_cast hab') hchainN
            · intro x hx
              obtain ⟨m, hm, hmx⟩ := List.mem_map.mp hx
              have hml : m ∈ titleMatches pages toc.chapterTitles :=
                (List.mem_insertionSort _).mp hm
              have hlt := titleMatches_page_lt pages toc.chapterTitles m hml
              rw [← hmx]
              show (m.2 : Int) ≤ (pages.length : Int) - 1
              have : (m.2 : Int) < (pages.length : Int) := by exact_mod_cast hlt
              omega

theorem sampledChapters_wellFormed (result : SamplingResult) (pages : List String)
    (hdist : List.Pairwise (fun a b : SampleBoundary => a.pageNumber ≠ b.pageNumber)
      result.boundaries)
    (hbound : ∀ b ∈ result.boundaries, b.pageNumber ≤ (pages.length : Int)) :
    chaptersWellFormed (sampledChapters result pages) := by
  have hsorted := insertionSort_key_sorted (fun b : SampleBoundary => b.pageNumber)
    result.boundaries
  have hdist' : List.Pairwise (fun a b : SampleBoundary => a.pageNumber ≠ b.pageNumber)
      (result.boundaries.insertionSort (fun a b => a.pageNumber ≤ b.pageNumber)) :=
    ((List.perm_insertionSort _ _).pairwise_iff (fun hne => Ne.symm hne)).mpr hdist
  have hchainB := chain'_lt_of_le_of_ne (fun b : SampleBoundary => b.pageNumber) _
    hsorted hdist'
  unfold sampledChapters
  apply fillEnds_wellFormed
  · rw [List.chain'_map]
    exact List.Chain'.imp
      (fun a b hab => by
        have hab' : a.pageNumber < b.pageNumber := hab
        show a.pageNumber - 1 < b.pageNumber - 1
        omega) hchainB
  · intro x hx
    obtain ⟨b, hb, hbx⟩ := List.mem_map.mp hx
    have hbl : b ∈ result.boundaries := (List.mem_insertionSort _).mp hb
    have := hbound b hbl
    rw [← hbx]
    show b.pageNumber - 1 ≤ (pages.length : Int) - 1
    omega

theorem detectFromLlmSampling_wellFormed (pages : List String) (hasApiKey : Bool)
    (samplingCall : Except String SamplingResult)
    (regexCompile : String → Option (String → Option String))
    (cs : List ChapterBoundary)
    (hnd : ∀ res, samplingCall = .ok res →
      List.Pairwise (fun a b : SampleBoundary => a.pageNumber ≠ b.pageNumber)
        res.boundaries ∧
      ∀ b ∈ res.boundaries, b.pageNumber ≤ (pages.length : Int))
    (h : detectFromLlmSampling pages hasApiKey samplingCall regexCompile = some cs) :
    chaptersWellFormed cs := by
  simp only [detectFromLlmSampling] at h
  split at h
  · cases h
  · split at h
    · cases h
    · cases samplingCall with
      | error e => cases h
      | ok result =>
        simp only at h
        split at h
        · cases h
        · obtain ⟨hdist, hbound⟩ := hnd result rfl
          cases hrc : regexCompile result.boundaryPattern with
          | some matcher =>
            rw [hrc] at h
            simp only at h
            split at h
            · injection h with h
              subst h
              apply fillEnds_wellFormed
              · rw [List.chain'_map]
                exact List.Chain'.imp
                  (fun a b hab => by
                    have hab' : a.2 < b.2 := hab
                    show ((a.2 : Nat) : Int) < ((b.2 : Nat) : Int)
                    exact_mod_cast hab')
                  (pagesFirstMatchesAux_chain matcher 0 pages)
              · intro x hx
                obtain ⟨f, hf, hfx⟩ := List.mem_map.mp hx
                have hfm := pagesFirstMatchesAux_mem matcher 0 pages f hf
                rw [← hfx]
                show (f.2 : Int) ≤ (pages.length : Int) - 1
                have hf2 : f.2 < pages.length := by
                  have := hfm.2
                  omega
                have : (f.2 : Int) < (pages.length : Int) := by exact_mod_cast hf2
                omega
            · injection h with h
              subst h
              exact sampledChapters_wellFormed result pages hdist hbound
          | none =>
            rw [hrc] at h
            injection h with h
            subst h
            exact sampledChapters_wellFormed result pages hdist hbound

theorem detectTier4_wellFormed (env : DetectEnv) (pages : List String) :
    chaptersWellFormed (detectTier4 env pages).chapters :=
  fixedChunks_wellFormed pages

theorem detectTier3_wellFormed (env : DetectEnv) (pages : List String)
    (h3 : ∀ res, env.samplingCall = .ok res →
      List.Pairwise (fun a b : SampleBoundary => a.pageNumber ≠ b.pageNumber)
        res.boundaries ∧
      ∀ b ∈ res.boundaries, b.pageNumber ≤ (pages.length : Int)) :
    chaptersWellFormed (detectTier3 env pages).chapters := by
  unfold detectTier3
  cases hd : detectFromLlmSampling pages env.hasApiKey env.samplingCall env.regexCompile with
  | some llmChapters =>
    simp only
    split
    · exact detectFromLlmSampling_wellFormed pages env.hasApiKey env.samplingCall
        env.regexCompile llmChapters h3 hd
    · exact detectTier4_wellFormed env pages
  | none => exact detectTier4_wellFormed env pages

-- ---------------------------------------------------------------------------
-- Orchestrator characterization: the closed form of every result slot
-- ---------------------------------------------------------------------------

/-- Closed form of the orchestrator's result at index `i`: the first chapter
of each batch of 5 (except index 0) is analyzed with the previous chapter's
key concepts as context, every other chapter with no context. -/
def chapterSpec (env : AnalyzeEnv) (pages : List String)
    (chapters : List ChapterBoundary) : Nat → ChapterAnalysis
  | 0 => analyzeIndexed env pages chapters 0 none
  | i + 1 =>
    analyzeIndexed env pages chapters (i + 1)
      (if (i + 1) % 5 = 0 then
        some (String.intercalate ", " (chapterSpec env pages chapters i).keyConcepts)
      else none)

theorem writeFold_eval (g : Nat → ChapterAnalysis) :
    ∀ (n b : Nat) (r : Nat → Option ChapterAnalysis) (j : Nat),
    (((List.range' b n).map (fun i => (i, g i))).foldl
      (fun r t => fun j => if j = t.1 then some t.2 else r j) r) j =
    if b ≤ j ∧ j < b + n then some (g j) else r j := by
  intro n
  induction n with
  | zero =>
    intro b r j
    simp only [List.range', List.map_nil, List.foldl_nil]
    have : ¬(b ≤ j ∧ j < b + 0) := by omega
    rw [if_neg this]
  | succ n ih =>
    intro b r j
    show (((b :: List.range' (b + 1) n).map (fun i => (i, g i))).foldl
      (fun r t => fun j => if j = t.1 then some t.2 else r j) r) j = _
    simp only [List.map_cons, List.foldl_cons]
    rw [ih (b + 1)]
    by_cases hj : b ≤ j ∧ j < b + (n + 1)
    · rw [if_pos hj]
      by_cases h2 : b + 1 ≤ j ∧ j < b + 1 + n
      · rw [if_pos h2]
      · rw [if_neg h2]
        have hjb : j = b := by omega
        simp [hjb]
    · rw [if_neg hj]
      have h2 : ¬(b + 1 ≤ j ∧ j < b + 1 + n) := by omega
      rw [if_neg h2]
      have h3 : ¬(j = b) := by omega
      rw [if_neg h3]

theorem runBatch_eval (env : AnalyzeEnv) (pages : List String)
    (chapters : List ChapterBoundary) (results : Nat → Option ChapterAnalysis)
    (b e j : Nat) :
    runBatch env pages chapters results b e j =
    if b ≤ j ∧ j < b + (e - b) then
      some (analyzeIndexed env pages chapters j (snapshotContext results j))
    else results j := by
  unfold runBatch
  exact writeFold_eval
    (fun i => analyzeIndexed env pages chapters i (snapshotContext results i))
    (e - b) b results j

theorem analyzeLoopGo_spec (env : AnalyzeEnv) (pages : List String)
    (chapters : List ChapterBoundary) :
    ∀ (fuel b : Nat) (r : Nat → Option ChapterAnalysis),
    b % 5 = 0 →
    chapters.length ≤ b + 5 * fuel →
    (∀ j, j < b → j < chapters.length → r j = some (chapterSpec env pages chapters j)) →
    (∀ j, b ≤ j → r j = none) →
    ∀ k, k < chapters.length →
    analyzeLoopGo env pages chapters fuel r b k = some (chapterSpec env pages chapters k) := by
  intro fuel
  induction fuel with
  | zero =>
    intro b r hb5 hlen hinv1 _ k hk
    exact hinv1 k (by omega) hk
  | succ fuel ih =>
    intro b r hb5 hlen hinv1 hinv2 k hk
    show (if b < chapters.length then
      analyzeLoopGo env pages chapters fuel
        (runBatch env pages chapters r b (min (b + 5) chapters.length)) (b + 5)
      else r) k = _
    by_cases hb : b < chapters.length
    · rw [if_pos hb]
      refine ih (b + 5) _ (by omega) (by omega) ?_ ?_ k hk
      · intro j hj hjlen
        rw [runBatch_eval]
        have hmin : b + (min (b + 5) chapters.length - b) = min (b + 5) chapters.length := by
          omega
        by_cases hjb : j < b
        · have : ¬(b ≤ j ∧ j < b + (min (b + 5) chapters.length - b)) := by omega
          rw [if_neg this]
          exact hinv1 j hjb hjlen
        · have hc : b ≤ j ∧ j < b + (min (b + 5) chapters.length - b) := by omega
          rw [if_pos hc]
          cases hj0 : j with
          | zero =>
            subst hj0
            have : snapshotContext r 0 = none := by simp [snapshotContext]
            rw [this]
            rfl
          | succ m =>
            subst hj0
            by_cases hjb' : m + 1 = b
            · have hbpos : 0 < b := by omega
              have hr : r (m + 1 - 1) = some (chapterSpec env pages chapters m) := by
                have : m < b := by omega
                have hmlen : m < chapters.length := by omega
                simpa using hinv1 m this hmlen
              have hsnap : snapshotContext r (m + 1) =
                  some (String.intercalate ", "
                    (chapterSpec env pages chapters m).keyConcepts) := by
                simp only [snapshotContext, if_pos (Nat.succ_pos m)]
                simp only [Nat.add_sub_cancel] at hr ⊢
                rw [hr]
              rw [hsnap]
              have hmod : (m + 1) % 5 = 0 := by omega
              simp only [chapterSpec, if_pos hmod]
            · have hjgt : b < m + 1 := by omega
              have hsnap : snapshotContext r (m + 1) = none := by
                simp only [snapshotContext, if_pos (Nat.succ_pos m)]
                have : r (m + 1 - 1) = none := hinv2 m (by omega)
                simp only [Nat.add_sub_cancel] at this ⊢
                rw [this]
              rw [hsnap]
              have hmod : ¬((m + 1) % 5 = 0) := by omega
              simp only [chapterSpec, if_neg hmod]
      · intro j hj
        rw [runBatch_eval]
        have : ¬(b ≤ j ∧ j < b + (min (b + 5) chapters.length - b)) := by omega
        rw [if_neg this]
        exact hinv2 j (by omega)
    · rw [if_neg hb]
      exact hinv1 k (by omega) hk

theorem analyzeChaptersWithContext_spec (env : AnalyzeEnv) (bs : BookStructure)
    (pages : List String) :
    ∀ k, k < bs.chapters.length →
    (analyzeChaptersWithContext env bs pages).get? k =
      some (chapterSpec env pages bs.chapters k) := by
  intro k hk
  unfold analyzeChaptersWithContext
  rw [List.get?_map, List.get?_range hk]
  simp only [Option.map_some']
  have := analyzeLoopGo_spec env pages bs.chapters bs.chapters.length 0
    (fun _ => none) (by omega) (by omega)
    (by intro j hj _; omega)
    (by intro j _; rfl) k hk
  rw [this]
  rfl

theorem analyzeChaptersWithContext_length (env : AnalyzeEnv) (bs : BookStructure)
    (pages : List String) :
    (analyzeChaptersWithContext env bs pages).length = bs.chapters.length := by
  unfold analyzeChaptersWithContext
  simp

theorem analyzeIndexed_chapterNumber (env : AnalyzeEnv) (pages : List String)
    (chapters : List ChapterBoundary) (i : Nat) (ctx : Option String) :
    (analyzeIndexed env pages chapters i ctx).chapterNumber = i + 1 := rfl

theorem chapterSpec_chapterNumber (env : AnalyzeEnv) (pages : List String)
    (chapters : List ChapterBoundary) :
    ∀ k, (chapterSpec env pages chapters k).chapterNumber = k + 1 := by
  intro k
  cases k <;> rfl

theorem detectTier2_wellFormed (env : DetectEnv) (pages : List String)
    (h2 : ∀ toc, env.tocCall = .ok toc →
      List.Pairwise (fun a b : String × Nat => a.2 ≠ b.2)
        (titleMatches pages toc.chapterTitles))
    (h3 : ∀ res, env.samplingCall = .ok res →
      List.Pairwise (fun a b : SampleBoundary => a.pageNumber ≠ b.pageNumber)
        res.boundaries ∧
      ∀ b ∈ res.boundaries, b.pageNumber ≤ (pages.length : Int)) :
    chaptersWellFormed (detectTier2 env pages).chapters := by
  unfold detectTier2
  cases hd : detectFromTitleMatching pages env.hasApiKey env.tocCall with
  | some titleResult =>
    simp only
    split
    · exact detectFromTitleMatching_wellFormed pages env.hasApiKey env.tocCall
        titleResult h2 hd
    · exact detectTier3_wellFormed env pages h3
  | none => exact detectTier3_wellFormed env pages h3

-- ---------------------------------------------------------------------------
-- Concrete fixtures used by witnesses and counterexamples
-- ---------------------------------------------------------------------------

/-- An analyzer environment with no credentials (every generation attempt is
offline). -/
def envOffline : AnalyzeEnv := ⟨false, fun _ _ _ _ => .error "offline"⟩

/-- A 12-chapter structure (two pages per chapter) for batch-order checks. -/
def bs12 : BookStructure :=
  ⟨"Twelve", none,
    (List.range 12).map (fun i => ⟨"Ch " ++ toString (i + 1), 2 * (i : Int), 2 * i + 1⟩),
    "pdf-links"⟩

/-- A 2-chapter structure for simple orchestrator witnesses. -/
def bs2 : BookStructure :=
  ⟨"Two", none, [⟨"One", 0, 1⟩, ⟨"Two", 2, 3⟩], "pdf-links"⟩

def pagesW : List String := ["alpha one", "beta two", "gamma three", "delta four"]

-- ---------------------------------------------------------------------------
-- Claim theorems
-- ---------------------------------------------------------------------------

/-- C3: for every environment, structure and page list, the orchestrator's
output has one entry per input chapter boundary and the entry at index `i`
has `chapterNumber = i + 1` (1-based, sequential, no gaps or duplicates,
in chapter-index order). -/
theorem orchestrator_numbering (env : AnalyzeEnv) (bs : BookStructure)
    (pages : List String) :
    (analyzeChaptersWithContext env bs pages).length = bs.chapters.length ∧
    ∀ i, i < bs.chapters.length →
      ((analyzeChaptersWithContext env bs pages).get? i).map
        (fun a => a.chapterNumber) = some (i + 1) := by
  refine ⟨analyzeChaptersWithContext_length env bs pages, ?_⟩
  intro i hi
  rw [analyzeChaptersWithContext_spec env bs pages i hi]
  simp only [Option.map_some']
  rw [chapterSpec_chapterNumber]

theorem orchestrator_numbering_witness :
    (analyzeChaptersWithContext envOffline bs2 pagesW).length = bs2.chapters.length ∧
    ((analyzeChaptersWithContext envOffline bs2 pagesW).get? 1).map
      (fun a => a.chapterNumber) = some 2 :=
  ⟨(orchestrator_numbering envOffline bs2 pagesW).1,
    (orchestrator_numbering envOffline bs2 pagesW).2 1 (by decide)⟩

/-- C10: within any batch, every chapter except the batch's first is
analyzed with no previous-chapter context; chapter `i` receives context
(the completed predecessor's key concepts) exactly when `i > 0` and `i` is
a multiple of the batch size 5.  The equation holds for every generation
oracle, so it pins down the context argument actually passed. -/
theorem orchestrator_context_iff (env : AnalyzeEnv) (bs : BookStructure)
    (pages : List String) :
    ∀ i, i < bs.chapters.length →
    (analyzeChaptersWithContext env bs pages).get? i =
      some (analyzeIndexed env pages bs.chapters i
        (if 0 < i ∧ i % 5 = 0 then
          some (String.intercalate ", "
            (((analyzeChaptersWithContext env bs pages).get? (i - 1)).getD
              defaultChapterAnalysis).keyConcepts)
        else none)) := by
  intro i hi
  rw [analyzeChaptersWithContext_spec env bs pages i hi]
  cases i with
  | zero =>
    have hc : ¬(0 < 0 ∧ 0 % 5 = 0) := by omega
    rw [if_neg hc]
    rfl
  | succ m =>
    by_cases h5 : (m + 1) % 5 = 0
    · have h01 : 0 < m + 1 ∧ (m + 1) % 5 = 0 := ⟨Nat.succ_pos m, h5⟩
      rw [if_pos h01]
      have hm : m < bs.chapters.length := by omega
      have hget := analyzeChaptersWithContext_spec env bs pages m hm
      simp only [Nat.add_sub_cancel, hget, Option.getD_some]
      simp only [chapterSpec, if_pos h5]
    · have h01 : ¬(0 < m + 1 ∧ (m + 1) % 5 = 0) := by
        intro hc
        exact h5 hc.2
      rw [if_neg h01]
      simp only [chapterSpec, if_neg h5]

theorem orchestrator_context_iff_witness :
    1 < bs2.chapters.length ∧
    (analyzeChaptersWithContext envOffline bs2 pagesW).get? 1 =
      some (analyzeIndexed envOffline pagesW bs2.chapters 1
        (if 0 < 1 ∧ 1 % 5 = 0 then
          some (String.intercalate ", "
            (((analyzeChaptersWithContext envOffline bs2 pagesW).get? 0).getD
              defaultChapterAnalysis).keyConcepts)
        else none)) :=
  ⟨by decide, orchestrator_context_iff envOffline bs2 pagesW 1 (by decide)⟩

/-- C4: for a 12-chapter input with batch size 5, chapter index 5 (the
first chapter of the second batch) is analyzed with the key concepts of the
completed analysis of chapter index 4 as its previous-chapter context, and
chapter index 0 is analyzed with no prior context. -/
theorem secondBatch_context (env : AnalyzeEnv) (bs : BookStructure)
    (pages : List String) (h12 : bs.chapters.length = 12) :
    (analyzeChaptersWithContext env bs pages).get? 5 =
      some (analyzeIndexed env pages bs.chapters 5
        (some (String.intercalate ", "
          (((analyzeChaptersWithContext env bs pages).get? 4).getD
            defaultChapterAnalysis).keyConcepts))) ∧
    (analyzeChaptersWithContext env bs pages).get? 0 =
      some (analyzeIndexed env pages bs.chapters 0 none) := by
  constructor
  · rw [analyzeChaptersWithContext_spec env bs pages 5 (by omega),
      analyzeChaptersWithContext_spec env bs pages 4 (by omega)]
    simp only [Option.getD_some]
    show some (chapterSpec env pages bs.chapters (4 + 1)) = _
    simp only [chapterSpec]
    norm_num
  · rw [analyzeChaptersWithContext_spec env bs pages 0 (by omega)]
    rfl

theorem secondBatch_context_witness :
    bs12.chapters.length = 12 ∧
    ((analyzeChaptersWithContext envOffline bs12 pagesW).get? 5 =
      some (analyzeIndexed envOffline pagesW bs12.chapters 5
        (some (String.intercalate ", "
          (((analyzeChaptersWithContext envOffline bs12 pagesW).get? 4).getD
            defaultChapterAnalysis).keyConcepts)))) :=
  ⟨by decide, (secondBatch_context envOffline bs12 pagesW (by decide)).1⟩

/-- C7: whenever the generation capability is unavailable or its call
errors, `analyzeChapter` returns the deterministic fallback (templated
one-line summary, empty lists, `max(5, round(wordCount / 250))` minutes)
and its reading time is at least 5. -/
theorem analyzeChapter_fallback (env : AnalyzeEnv) (n : Nat)
    (title text : String) (ctx : Option String)
    (h : env.hasApiKey = false ∨
      ∃ e, env.generate n title (truncateChapterText text) ctx = .error e) :
    analyzeChapter env n title text ctx =
      { summary := "Content from \"" ++ title ++ "\"."
        keyConcepts := []
        learningObjectives := []
        prerequisites := []
        estimatedReadingMinutes :=
          max 5 (jsRoundDiv ((jsWordCount text : Nat) : Int) 250) } ∧
    5 ≤ (analyzeChapter env n title text ctx).estimatedReadingMinutes := by
  have heq : analyzeChapter env n title text ctx = fallbackChapterAnalysis title text := by
    unfold analyzeChapter
    rcases h with hk | ⟨e, he⟩
    · rw [hk]
      simp
    · by_cases hk : env.hasApiKey
      · simp only [hk, not_true, if_false, he]
      · simp [hk]
  refine ⟨heq, ?_⟩
  rw [heq]
  exact le_max_left 5 _

theorem analyzeChapter_fallback_witness :
    (envOffline.hasApiKey = false ∨
      ∃ e, envOffline.generate 1 "Intro" (truncateChapterText "one two three") none =
        .error e) ∧
    analyzeChapter envOffline 1 "Intro" "one two three" none =
      { summary := "Content from \"Intro\"."
        keyConcepts := []
        learningObjectives := []
        prerequisites := []
        estimatedReadingMinutes :=
          max 5 (jsRoundDiv ((jsWordCount "one two three" : Nat) : Int) 250) } ∧
    5 ≤ (analyzeChapter envOffline 1 "Intro" "one two three" none).estimatedReadingMinutes :=
  ⟨Or.inl rfl,
    (analyzeChapter_fallback envOffline 1 "Intro" "one two three" none (Or.inl rfl)).1,
    (analyzeChapter_fallback envOffline 1 "Intro" "one two three" none (Or.inl rfl)).2⟩

-- ---------------------------------------------------------------------------
-- Detection-level claim theorems
-- ---------------------------------------------------------------------------

/-- C1 (amended): the chapter invariant (sorted ascending by start page,
pairwise non-overlapping, non-empty ranges) holds for every tier's output
provided the external data is non-degenerate: link destinations lie inside
the document, the title-match tier locates its titles on pairwise-distinct
pages, and the sampling tier's boundary pages are pairwise distinct and at
most the page count.  (As stated, without these provisos, the claim fails —
see the counterexample.) -/
theorem detectBookStructure_wellFormed (env : DetectEnv) (pages : List String)
    (h1 : ∀ numPages annots, env.pdfParse = .ok (numPages, annots) →
      ∀ a ∈ annots, ∀ d, a.destPage = some d → d < (numPages : Int))
    (h2 : ∀ toc, env.tocCall = .ok toc →
      List.Pairwise (fun a b : String × Nat => a.2 ≠ b.2)
        (titleMatches pages toc.chapterTitles))
    (h3 : ∀ res, env.samplingCall = .ok res →
      List.Pairwise (fun a b : SampleBoundary => a.pageNumber ≠ b.pageNumber)
        res.boundaries ∧
      ∀ b ∈ res.boundaries, b.pageNumber ≤ (pages.length : Int)) :
    chaptersWellFormed (detectBookStructure env pages).chapters := by
  unfold detectBookStructure
  cases hd : detectFromPdfLinks env.pdfParse with
  | some linkChapters =>
    simp only
    split
    · exact detectFromPdfLinks_wellFormed env.pdfParse linkChapters h1 hd
    · exact detectTier2_wellFormed env pages h2 h3
  | none => exact detectTier2_wellFormed env pages h2 h3

/-- Environment where every external call fails. -/
def envAllErr : DetectEnv :=
  ⟨false, .error "bad pdf", .error "no key", .error "no key", fun _ => none,
    .error "no key"⟩

theorem detectBookStructure_wellFormed_witness :
    (∀ numPages annots, envAllErr.pdfParse = .ok (numPages, annots) →
      ∀ a ∈ annots, ∀ d, a.destPage = some d → d < (numPages : Int)) ∧
    (∀ toc, envAllErr.tocCall = .ok toc →
      List.Pairwise (fun a b : String × Nat => a.2 ≠ b.2)
        (titleMatches ["page one text"] toc.chapterTitles)) ∧
    (∀ res, envAllErr.samplingCall = .ok res →
      List.Pairwise (fun a b : SampleBoundary => a.pageNumber ≠ b.pageNumber)
        res.boundaries ∧
      ∀ b ∈ res.boundaries, b.pageNumber ≤ (("page one text" :: []).length : Int)) ∧
    chaptersWellFormed (detectBookStructure envAllErr ["page one text"]).chapters :=
  ⟨fun _ _ h => Except.noConfusion h,
    fun _ h => Except.noConfusion h,
    fun _ h => Except.noConfusion h,
    detectBookStructure_wellFormed envAllErr ["page one text"]
      (fun _ _ h => Except.noConfusion h)
      (fun _ h => Except.noConfusion h)
      (fun _ h => Except.noConfusion h)⟩

/-- A page on which two distinct TOC titles both make their first match. -/
def pageT2 : String :=
  "chapter one intro and chapter two intro with plenty of additional body text so that the table of contents extract comfortably exceeds the minimum length threshold"

/-- Tier 1 yields no links; tier 2's TOC call returns two titles that both
first-match page 0. -/
def envT2 : DetectEnv :=
  ⟨true, .ok (2, []),
    .ok ⟨"Demo Book", none, ["chapter one intro", "chapter two intro"]⟩,
    .error "unused", fun _ => none, .error "unused"⟩

/-- C1 counterexample: when two extracted titles first-match the same page,
the title-match tier emits a chapter with `endPage = startPage - 1 < startPage`,
violating the claimed invariant. -/
theorem titleMatch_duplicate_page_breaks_invariant :
    detectBookStructure envT2 [pageT2, "second page"] =
      ⟨"Demo Book", none,
        [⟨"chapter one intro", 0, -1⟩, ⟨"chapter two intro", 0, 1⟩],
        "title-match"⟩ ∧
    ¬ chaptersWellFormed
        [⟨"chapter one intro", 0, -1⟩, ⟨"chapter two intro", 0, 1⟩] := by
  constructor
  · decide
  · decide

-- ---------------------------------------------------------------------------
-- C8 / C9: detection totality and the fixed-chunks fallthrough
-- ---------------------------------------------------------------------------

theorem detectFromTitleMatching_of_error (pages : List String) (k : Bool)
    (e : String) : detectFromTitleMatching pages k (.error e) = none := by
  simp only [detectFromTitleMatching]
  split_ifs <;> rfl

theorem detectFromLlmSampling_of_error (pages : List String) (k : Bool)
    (e : String) (rc : String → Option (String → Option String)) :
    detectFromLlmSampling pages k (.error e) rc = none := by
  simp only [detectFromLlmSampling]
  split_ifs <;> rfl

theorem extractBookMetadata_of_error (k : Bool) (e : String) :
    extractBookMetadata k (.error e) = ("Untitled Book", none) := by
  cases k <;> rfl

/-- C8: even when every external interaction fails (PDF parsing and every
generation call), `detectBookStructure` still returns a `BookStructure`:
each tier's failure is caught as "no result" and the always-succeeding
fixed-chunks tier produces the answer. -/
theorem detect_allFailures_fallthrough (env : DetectEnv) (pages : List String)
    (e₁ e₂ e₃ e₄ : String)
    (h1 : env.pdfParse = .error e₁) (h2 : env.tocCall = .error e₂)
    (h3 : env.samplingCall = .error e₃) (h4 : env.metadataCall = .error e₄) :
    detectBookStructure env pages =
      ⟨"Untitled Book", none, fixedChunks pages, "fixed-chunks"⟩ := by
  unfold detectBookStructure detectTier2 detectTier3 detectTier4
  rw [h1, h2, h3, h4, detectFromTitleMatching_of_error,
    detectFromLlmSampling_of_error, extractBookMetadata_of_error]
  rfl

/-- Environment where every external call fails but a key is configured. -/
def envDetErr : DetectEnv :=
  ⟨true, .error "pdf boom", .error "toc boom", .error "sample boom",
    fun _ => none, .error "meta boom"⟩

theorem detect_allFailures_fallthrough_witness :
    envDetErr.pdfParse = .error "pdf boom" ∧
    envDetErr.tocCall = .error "toc boom" ∧
    envDetErr.samplingCall = .error "sample boom" ∧
    envDetErr.metadataCall = .error "meta boom" ∧
    detectBookStructure envDetErr ["x", "y"] =
      ⟨"Untitled Book", none, fixedChunks ["x", "y"], "fixed-chunks"⟩ :=
  ⟨rfl, rfl, rfl, rfl,
    detect_allFailures_fallthrough envDetErr ["x", "y"] _ _ _ _ rfl rfl rfl rfl⟩

theorem fixedChunksGo_length : ∀ (fuel total i num : Nat),
    total ≤ i + 30 * fuel →
    (fixedChunksGo fuel total i num).length = (total - i + 29) / 30 := by
  intro fuel
  induction fuel with
  | zero =>
    intro total i num h
    have hz : total - i = 0 := by omega
    simp [fixedChunksGo, hz]
  | succ fuel ih =>
    intro total i num h
    show (if i < total then
        (⟨"Section " ++ toString num, (i : Int),
          ((min (i + 29) (total - 1) : Nat) : Int)⟩ : ChapterBoundary) ::
          fixedChunksGo fuel total (i + 30) (num + 1)
      else []).length = _
    by_cases hit : i < total
    · rw [if_pos hit]
      simp only [List.length_cons]
      rw [ih total (i + 30) (num + 1) (by omega)]
      omega
    · rw [if_neg hit]
      have hz : total - i = 0 := by omega
      simp [hz]

/-- C9: with no link annotations and no generation capability, detection
falls through to fixed chunks: the result carries the placeholder metadata,
`detectionMethod = "fixed-chunks"`, and `ceil(totalPages / 30)` chapters. -/
theorem detect_noLinks_noKey_fixedChunks (env : DetectEnv) (pages : List String)
    (n : Nat) (hk : env.hasApiKey = false) (hp : env.pdfParse = .ok (n, [])) :
    detectBookStructure env pages =
      ⟨"Untitled Book", none, fixedChunks pages, "fixed-chunks"⟩ ∧
    (fixedChunks pages).length = (pages.length + 29) / 30 := by
  constructor
  · unfold detectBookStructure detectTier2 detectTier3 detectTier4
    rw [hp]
    have hlinks : detectFromPdfLinks (.ok (n, [])) = none := rfl
    rw [hlinks]
    have ht2 : detectFromTitleMatching pages env.hasApiKey env.tocCall = none := by
      unfold detectFromTitleMatching
      rw [hk]
      rfl
    rw [ht2]
    have ht3 : detectFromLlmSampling pages env.hasApiKey env.samplingCall
        env.regexCompile = none := by
      unfold detectFromLlmSampling
      rw [hk]
      rfl
    rw [ht3]
    have hm : extractBookMetadata env.hasApiKey env.metadataCall =
        ("Untitled Book", none) := by
      unfold extractBookMetadata
      rw [hk]
      rfl
    rw [hm]
  · unfold fixedChunks
    rw [fixedChunksGo_length pages.length pages.length 0 1 (by omega)]
    omega

/-- Environment with no credentials and a parsed PDF carrying no link
annotations. -/
def envNoKey : DetectEnv :=
  ⟨false, .ok (3, []), .error "no key", .error "no key", fun _ => none,
    .error "no key"⟩

def pagesLorem : List String := ["lorem ipsum dolor sit amet", "", ""]

theorem detect_noLinks_noKey_fixedChunks_witness :
    envNoKey.hasApiKey = false ∧
    envNoKey.pdfParse = .ok (3, []) ∧
    detectBookStructure envNoKey pagesLorem =
      ⟨"Untitled Book", none, fixedChunks pagesLorem, "fixed-chunks"⟩ ∧
    fixedChunks pagesLorem = [⟨"Section 1", 0, 2⟩] ∧
    (fixedChunks pagesLorem).length = (pagesLorem.length + 29) / 30 :=
  ⟨rfl, rfl,
    (detect_noLinks_noKey_fixedChunks envNoKey pagesLorem 3 rfl rfl).1,
    by decide,
    (detect_noLinks_noKey_fixedChunks envNoKey pagesLorem 3 rfl rfl).2⟩

-- ---------------------------------------------------------------------------
-- Plan-edit claim theorems (C2, C5, C6)
-- ---------------------------------------------------------------------------

def planFix : CoursePlan :=
  ⟨"Plan", "A simple plan", 10, [⟨1, "Unit 1", "Unit one", [], [1], 60⟩]⟩

def chapFix : ChapterAnalysis :=
  { summary := "Chapter one", keyConcepts := ["alpha"], learningObjectives := []
    prerequisites := [], estimatedReadingMinutes := 30, chapterNumber := 1
    title := "Chapter 1", startPage := 0, endPage := 99 }

/-- A 120-page book whose single analyzed chapter ends at page 99. -/
def baFix : BookAnalysis := ⟨"Book", none, 120, [chapFix], "pdf-links"⟩

def envEditNoKey : EditEnv :=
  ⟨false, .error "no key", .error "no key", .error "no key", .error "no key"⟩

def envEditDiscErr : EditEnv :=
  ⟨true, .ok (), .error "discovery failed", .error "unused", .error "unused"⟩

/-- C2 (amended): with no credentials `editCoursePlan` returns the input
plan unchanged with the fixed explanation and never raises; but when the
two-step flow's discovery call fails, the error propagates to the caller —
`editCoursePlan` itself performs no recovery for failed generation calls. -/
theorem editCoursePlan_failure_semantics :
    (∀ (env : EditEnv) (plan : CoursePlan) (instr : String) (ba : BookAnalysis)
      (pages : Option (List String)), env.hasApiKey = false →
      editCoursePlan env plan instr ba pages =
        .ok ⟨plan, none,
          "No API key configured — unable to edit the plan automatically."⟩) ∧
    (∀ (env : EditEnv) (plan : CoursePlan) (instr : String) (ba : BookAnalysis)
      (pages : Option (List String)) (e : String),
      env.hasApiKey = true → env.docs = .ok () →
      looksLikeMissingContent instr = true → hasExtractedPages pages = true →
      (ba.chapters.getLast?).elim 0 (fun c => c.endPage) < ba.totalPages - 1 →
      env.discoveryCall = .error e →
      editCoursePlan env plan instr ba pages = .error e) ∧
    (∀ (env : EditEnv) (plan : CoursePlan) (instr : String) (ba : BookAnalysis)
      (pages : Option (List String)) (ds : List DiscoveredChapter) (e : String),
      env.hasApiKey = true → env.docs = .ok () →
      looksLikeMissingContent instr = true → hasExtractedPages pages = true →
      (ba.chapters.getLast?).elim 0 (fun c => c.endPage) < ba.totalPages - 1 →
      env.discoveryCall = .ok ds → env.mergeCall = .error e →
      editCoursePlan env plan instr ba pages = .error e) := by
  refine ⟨?_, ?_, ?_⟩
  · intro env plan instr ba pages hk
    obtain ⟨hasApiKey, docs, disc, mrg, std⟩ := env
    simp only at hk
    subst hk
    rfl
  · intro env plan instr ba pages e hk hdocs hlooks hpages hlast hdisc
    obtain ⟨hasApiKey, docs, disc, mrg, std⟩ := env
    simp only at hk hdocs hdisc
    subst hk
    subst hdocs
    subst hdisc
    unfold editCoursePlan
    rw [if_neg (by simp)]
    show (if looksLikeMissingContent instr = true ∧ hasExtractedPages pages = true
      then _ else _) = _
    rw [if_pos ⟨hlooks, hpages⟩]
    show (if (ba.chapters.getLast?).elim 0 (fun c => c.endPage) < ba.totalPages - 1
      then _ else _) = _
    rw [if_pos hlast]
  · intro env plan instr ba pages ds e hk hdocs hlooks hpages hlast hdisc hmerge
    obtain ⟨hasApiKey, docs, disc, mrg, std⟩ := env
    simp only at hk hdocs hdisc hmerge
    subst hk
    subst hdocs
    subst hdisc
    subst hmerge
    unfold editCoursePlan
    rw [if_neg (by simp)]
    show (if looksLikeMissingContent instr = true ∧ hasExtractedPages pages = true
      then _ else _) = _
    rw [if_pos ⟨hlooks, hpages⟩]
    show (if (ba.chapters.getLast?).elim 0 (fun c => c.endPage) < ba.totalPages - 1
      then _ else _) = _
    rw [if_pos hlast]

/-- Environment whose discovery call succeeds but whose merge call fails. -/
def envEditMergeErr : EditEnv :=
  ⟨true, .ok (), .ok [⟨"Final Chapter", "The end", [], [], 100, 119⟩],
    .error "merge failed", .error "unused"⟩

theorem editCoursePlan_failure_semantics_witness :
    (envEditNoKey.hasApiKey = false ∧
      editCoursePlan envEditNoKey planFix "tweak it" baFix none =
        .ok ⟨planFix, none,
          "No API key configured — unable to edit the plan automatically."⟩) ∧
    (envEditDiscErr.hasApiKey = true ∧
      envEditDiscErr.docs = .ok () ∧
      looksLikeMissingContent "the last chapter is missing" = true ∧
      hasExtractedPages (some ["raw page"]) = true ∧
      (baFix.chapters.getLast?).elim 0 (fun c => c.endPage) < baFix.totalPages - 1 ∧
      envEditDiscErr.discoveryCall = .error "discovery failed" ∧
      editCoursePlan envEditDiscErr planFix "the last chapter is missing" baFix
        (some ["raw page"]) = .error "discovery failed") ∧
    (envEditMergeErr.mergeCall = .error "merge failed" ∧
      editCoursePlan envEditMergeErr planFix "the last chapter is missing" baFix
        (some ["raw page"]) = .error "merge failed") :=
  ⟨⟨rfl, editCoursePlan_failure_semantics.1 envEditNoKey planFix "tweak it" baFix
      none rfl⟩,
    ⟨rfl, rfl, by decide, by decide, by decide, rfl,
      editCoursePlan_failure_semantics.2.1 envEditDiscErr planFix
        "the last chapter is missing" baFix (some ["raw page"]) "discovery failed"
        rfl rfl (by decide) (by decide) (by decide) rfl⟩,
    ⟨rfl,
      editCoursePlan_failure_semantics.2.2 envEditMergeErr planFix
        "the last chapter is missing" baFix (some ["raw page"])
        [⟨"Final Chapter", "The end", [], [], 100, 119⟩] "merge failed"
        rfl rfl (by decide) (by decide) (by decide) rfl rfl⟩⟩

/-- C2 counterexample: a failing discovery call makes `editCoursePlan`
return the error to its caller instead of the original plan with an
explanatory message. -/
theorem editCoursePlan_discovery_error_propagates :
    editCoursePlan envEditDiscErr planFix "the last chapter is missing" baFix
      (some ["raw page"]) = .error "discovery failed" := by decide

/-- C5 (amended): under the discovery conditions (missing-content intent,
raw pages available, `lastChapter.endPage = 99 < totalPages - 1 = 119`),
and provided discovery and merge both succeed, the updated book analysis is
the original chapters with the discovered chapters appended — strictly
longer whenever discovery reports at least one chapter.  (As stated, the
claim fails when discovery returns an empty list — see the
counterexample.) -/
theorem editCoursePlan_discovery_appends (env : EditEnv) (plan : CoursePlan)
    (instr : String) (ba : BookAnalysis) (pages : Option (List String))
    (ds : List DiscoveredChapter) (m : EditedPlanResponse)
    (hk : env.hasApiKey = true) (hdocs : env.docs = .ok ())
    (hlooks : looksLikeMissingContent instr = true)
    (hpages : hasExtractedPages pages = true)
    (hlast : (ba.chapters.getLast?).elim 0 (fun c => c.endPage) = 99)
    (htot : ba.totalPages = 120)
    (hdisc : env.discoveryCall = .ok ds) (hne : ds ≠ [])
    (hmerge : env.mergeCall = .ok m) :
    editCoursePlan env plan instr ba pages =
      .ok ⟨⟨m.title, m.description, m.estimatedHours, m.units⟩,
        some { ba with chapters := appendDiscovered ba ds }, m.explanation⟩ ∧
    ba.chapters.length < (appendDiscovered ba ds).length := by
  constructor
  · obtain ⟨hasApiKey, docs, disc, mrg, std⟩ := env
    simp only at hk hdocs hdisc hmerge
    subst hk
    subst hdocs
    subst hdisc
    subst hmerge
    unfold editCoursePlan
    rw [if_neg (by simp)]
    show (if looksLikeMissingContent instr = true ∧ hasExtractedPages pages = true
      then _ else _) = _
    rw [if_pos ⟨hlooks, hpages⟩]
    show (if (ba.chapters.getLast?).elim 0 (fun c => c.endPage) < ba.totalPages - 1
      then _ else _) = _
    rw [if_pos (by rw [hlast, htot]; norm_num)]
    rfl
  · have hlen : 0 < ds.length := List.length_pos.mpr hne
    unfold appendDiscovered
    rw [List.length_append, List.length_mapIdx]
    omega

/-- A discovered final chapter covering the uncovered pages 100–119. -/
def discFix : DiscoveredChapter :=
  ⟨"Final Chapter", "The end", ["omega"], ["wrap up"], 100, 119⟩

def mergeFix : EditedPlanResponse :=
  ⟨"Plan v2", "desc", 12,
    [⟨1, "Unit 1", "Unit one", [], [1], 60⟩, ⟨2, "Unit 2", "Unit two", [], [2], 30⟩],
    "Added the missing chapter"⟩

def envEditDiscOk : EditEnv :=
  ⟨true, .ok (), .ok [discFix], .ok mergeFix, .error "unused"⟩

theorem editCoursePlan_discovery_appends_witness :
    (envEditDiscOk.hasApiKey = true ∧ envEditDiscOk.docs = .ok () ∧
      looksLikeMissingContent "the ending is missing" = true ∧
      hasExtractedPages (some ["raw page"]) = true ∧
      (baFix.chapters.getLast?).elim 0 (fun c => c.endPage) = 99 ∧
      baFix.totalPages = 120 ∧
      envEditDiscOk.discoveryCall = .ok [discFix] ∧ [discFix] ≠ [] ∧
      envEditDiscOk.mergeCall = .ok mergeFix) ∧
    (editCoursePlan envEditDiscOk planFix "the ending is missing" baFix
        (some ["raw page"]) =
      .ok ⟨⟨mergeFix.title, mergeFix.description, mergeFix.estimatedHours,
          mergeFix.units⟩,
        some { baFix with chapters := appendDiscovered baFix [discFix] },
        mergeFix.explanation⟩ ∧
      baFix.chapters.length < (appendDiscovered baFix [discFix]).length) :=
  ⟨⟨rfl, rfl, by decide, by decide, by decide, rfl, rfl, by decide, rfl⟩,
    editCoursePlan_discovery_appends envEditDiscOk planFix "the ending is missing"
      baFix (some ["raw page"]) [discFix] mergeFix rfl rfl (by decide) (by decide)
      (by decide) rfl rfl (by decide) rfl⟩

def envEditDiscEmpty : EditEnv :=
  ⟨true, .ok (), .ok [], .ok mergeFix, .error "unused"⟩

/-- C5 counterexample: the discovery flow runs (an updated book analysis is
returned) but the discovery call reports no chapters, so the updated
chapter list is NOT strictly longer than the input's. -/
theorem editCoursePlan_discovery_empty_no_growth :
    (editCoursePlan envEditDiscEmpty planFix "the last chapter is missing" baFix
      (some ["raw page"])).map
        (fun r => r.updatedBookAnalysis.map (fun u => u.chapters.length)) =
      .ok (some baFix.chapters.length) := by decide

-- ---------------------------------------------------------------------------
-- C6: reading-minute bounds
-- ---------------------------------------------------------------------------

theorem fallback_minutes_pos (t s : String) :
    0 < (fallbackChapterAnalysis t s).estimatedReadingMinutes := by
  show 0 < max 5 (jsRoundDiv ((jsWordCount s : Nat) : Int) 250)
  have := le_max_left (5 : Int) (jsRoundDiv ((jsWordCount s : Nat) : Int) 250)
  omega

theorem jsRoundDiv_nonneg (p q : Int) (hp : 0 ≤ p) (hq : 0 < q) :
    0 ≤ jsRoundDiv p q := by
  unfold jsRoundDiv
  rw [if_neg (by omega), if_neg (by omega)]
  exact Int.fdiv_nonneg (by omega) (by omega)

/-- C6 (amended): every analyzer-produced `ChapterAnalysis` has strictly
positive `estimatedReadingMinutes`, but a discovery-appended chapter's
proportional estimate `round((pageSpan / totalPages) * 120)` is only
non-negative — it is 0 whenever `240 * pageSpan < totalPages` (see the
counterexample), so the claim's "strictly greater than 0" fails for the
discovery path. -/
theorem estimatedReadingMinutes_bounds :
    (∀ (env : AnalyzeEnv) (n : Nat) (title text : String) (ctx : Option String),
      0 < (analyzeChapter env n title text ctx).estimatedReadingMinutes) ∧
    (∀ (baseCount : Nat) (totalPages : Int) (i : Nat) (ch : DiscoveredChapter),
      0 < totalPages → ch.startPage ≤ ch.endPage →
      0 ≤ (discoveredToAnalysis baseCount totalPages i ch).estimatedReadingMinutes) := by
  constructor
  · intro env n title text ctx
    unfold analyzeChapter
    by_cases hk : env.hasApiKey
    · rw [if_neg (by simp [hk])]
      cases env.generate n title (truncateChapterText text) ctx with
      | error e => exact fallback_minutes_pos title text
      | ok o =>
        show 0 < (if 0 < o.estimatedReadingMinutes then o.estimatedReadingMinutes
          else max 5 (jsRoundDiv ((jsWordCount text : Nat) : Int) 250))
        by_cases hpos : 0 < o.estimatedReadingMinutes
        · rw [if_pos hpos]
          exact hpos
        · rw [if_neg hpos]
          exact fallback_minutes_pos title text
    · rw [if_pos (by simp [hk])]
      exact fallback_minutes_pos title text
  · intro baseCount totalPages i ch htot hspan
    show 0 ≤ jsRoundDiv ((ch.endPage - ch.startPage + 1) * 120) totalPages
    exact jsRoundDiv_nonneg _ _ (by omega) htot

theorem estimatedReadingMinutes_bounds_witness :
    (0 < (analyzeChapter envOffline 1 "Intro" "words here" none).estimatedReadingMinutes) ∧
    (0 < (241 : Int) ∧ discFix.startPage ≤ discFix.endPage ∧
      0 ≤ (discoveredToAnalysis 1 241 0 discFix).estimatedReadingMinutes) :=
  ⟨estimatedReadingMinutes_bounds.1 envOffline 1 "Intro" "words here" none,
    by decide, by decide,
    estimatedReadingMinutes_bounds.2 1 241 0 discFix (by decide) (by decide)⟩

/-- A 241-page book whose single analyzed chapter covers only page 0. -/
def baSmallCover : BookAnalysis :=
  ⟨"Long Book", none, 241,
    [{ summary := "Opening", keyConcepts := [], learningObjectives := []
       prerequisites := [], estimatedReadingMinutes := 5, chapterNumber := 1
       title := "Ch 1", startPage := 0, endPage := 0 }], "llm-detection"⟩

/-- A one-page discovered chapter in a 241-page book:
`round((1 / 241) * 120) = 0`. -/
def discSmall : DiscoveredChapter := ⟨"Appendix", "Closing", [], [], 1, 1⟩

def envEditSmall : EditEnv :=
  ⟨true, .ok (), .ok [discSmall], .ok mergeFix, .error "unused"⟩

/-- C6 counterexample: the chapter appended by the discovery flow has
`estimatedReadingMinutes = 0`, not an integer strictly greater than 0. -/
theorem discovered_minutes_zero :
    editCoursePlan envEditSmall planFix "some sections are missing" baSmallCover
      (some ["raw"]) =
      .ok ⟨⟨mergeFix.title, mergeFix.description, mergeFix.estimatedHours,
          mergeFix.units⟩,
        some { baSmallCover with chapters := baSmallCover.chapters ++
          [discoveredToAnalysis 1 241 0 discSmall] },
        mergeFix.explanation⟩ ∧
    ¬ (∀ c ∈ baSmallCover.chapters ++ [discoveredToAnalysis 1 241 0 discSmall],
        0 < c.estimatedReadingMinutes) := by
  constructor
  · decide
  · decide

end BookQuest
